import Mathlib

set_option linter.unusedVariables false

/-! Shallow embedding of the P runtime core (Src/Prt/Core/Prt.c together with the
program-table declarations of Src/Prt/API/PrtProgram.h).

Machine integers (PRT_UINT32 indices, counts) are modelled as Nat: every count in
the core is small and only ever incremented by one from zero, so no arithmetic in
the embedded fragment can overflow 32 bits.  C pointers to PRT_VALUE are modelled
as Option PrtValue, with none standing for the NULL pointer; the distinguished
null *value* produced by PrtMkNullValue is the separate constructor PrtValue.null.
Fatal PrtAssert failures are modelled as Except.error carrying the assertion
message.  The rectangular index tables linkMap and machineDefMap are modelled as
total functions on Nat, mirroring their use as constant arrays. -/

structure PRT_GUID where
  data1 : Nat
  data2 : Nat
  data3 : Nat
  data4 : Nat
  deriving DecidableEq, Inhabited

structure PRT_MACHINEID where
  processId : PRT_GUID
  machineId : Nat
  deriving DecidableEq, Inhabited

/-- Dynamically typed P values (PRT_VALUE).  Only the kinds the core inspects are
distinguished; tuple carries the opaque type handle given to MakeTupleFromArray
and the element array (elements are nullable pointers in C, hence Option). -/
inductive PrtValue : Type where
  | null : PrtValue
  | boolean : Bool → PrtValue
  | integer : Int → PrtValue
  | event : Nat → PrtValue
  | mid : PRT_MACHINEID → PrtValue
  | tuple : Nat → List (Option PrtValue) → PrtValue

instance : Inhabited PrtValue := ⟨PrtValue.null⟩

/-- Modelled from the spec: the Value Adapter operation mk_null, a freshly made
null value (PrtMkNullValue lives in the external value system, not under src). -/
def PrtMkNullValue : PrtValue := PrtValue.null

/-- Modelled from the spec: the Value Adapter operation clone, a deep copy.  In a
pure value model a deep copy is the structurally identical value. -/
def PrtCloneValue (v : PrtValue) : PrtValue := v

/-- Modelled from the spec: the Value Adapter operation make_tuple, which packs a
heterogeneous array into a tuple of the given payload type, taking ownership of
the elements (MakeTupleFromArray is not under src). -/
def MakeTupleFromArray (payloadType : Nat) (args : List (Option PrtValue)) : PrtValue :=
  PrtValue.tuple payloadType args

/-- PRT_EVENTDECL of PrtProgram.h (annotation fields dropped; the type handle of
the payload is an opaque Nat). -/
structure PRT_EVENTDECL where
  declIndex : Nat
  name : String
  eventMaxInstances : Nat
  type : Nat
  deriving Inhabited

/-- PRT_FUNDECL of PrtProgram.h restricted to the fields the embedded core
reads (the payload type handle for anonymous functions). -/
structure PRT_FUNDECL where
  name : String
  payloadType : Nat
  deriving Inhabited

/-- PRT_STATEDECL of PrtProgram.h restricted to the fields the embedded core
reads. -/
structure PRT_STATEDECL where
  name : String
  entryFun : PRT_FUNDECL
  exitFun : PRT_FUNDECL
  deriving Inhabited

/-- PRT_MACHINEDECL of PrtProgram.h restricted to the fields the embedded core
reads. -/
structure PRT_MACHINEDECL where
  declIndex : Nat
  name : String
  maxQueueSize : Nat
  initStateIndex : Nat
  states : List PRT_STATEDECL
  deriving Inhabited

/-- PRT_FOREIGNTYPEDECL restricted to its declIndex field. -/
structure PRT_FOREIGNTYPEDECL where
  declIndex : Nat
  name : String
  deriving Inhabited

/-- PRT_PROGRAMDECL of PrtProgram.h.  nEvents, nMachines, nForeignTypes are the
lengths of the corresponding lists; linkMap and machineDefMap are the constant
rectangular index tables. -/
structure PRT_PROGRAMDECL where
  events : List PRT_EVENTDECL
  machines : List PRT_MACHINEDECL
  foreignTypes : List PRT_FOREIGNTYPEDECL
  linkMap : Nat → Nat → Nat
  machineDefMap : Nat → Nat
  deriving Inhabited

/-- The index-assignment loop of PrtInitialize: the element at offset i from the
start position receives index start + i. -/
def assignIdx {α : Type} (set : Nat → α → α) : Nat → List α → List α
  | _, [] => []
  | n, x :: xs => set n x :: assignIdx set (n + 1) xs

/-- PrtInitialize of Prt.c: assigns dense declIndex values to events, machines
and foreign types by scanning the program.  (The C function also copies the
foreign-type count and table into process-wide globals; those globals are read
by no function embedded here.) -/
def PrtInitialize (program : PRT_PROGRAMDECL) : PRT_PROGRAMDECL :=
  { program with
    events := assignIdx (fun i e => { e with declIndex := i }) 0 program.events
    machines := assignIdx (fun i m => { m with declIndex := i }) 0 program.machines
    foreignTypes := assignIdx (fun i f => { f with declIndex := i }) 0 program.foreignTypes }

/-- PRT_COOPERATIVE_SCHEDULER: the two semaphores are opaque handles. -/
structure PRT_COOPERATIVE_SCHEDULER where
  workAvailable : Nat
  threadsWaiting : Nat
  allThreadsStopped : Nat
  deriving DecidableEq, Inhabited

def PRT_SCHEDULINGPOLICY_TASKNEUTRAL : Nat := 0

def PRT_SCHEDULINGPOLICY_COOPERATIVE : Nat := 1

/-- PRT_MACHINEINST: the identity fields of a machine instance (spec section 3),
plus the cloned initial payload handed to it at creation. -/
structure PRT_MACHINEINST where
  id : PRT_MACHINEID
  instanceOf : Nat
  symbolicName : Nat
  initialPayload : Option PrtValue
  deriving Inhabited

/-- PRT_PROCESS_PRIV restricted to the fields the embedded core reads. -/
structure PRT_PROCESS_PRIV where
  guid : PRT_GUID
  program : PRT_PROGRAMDECL
  machineCount : Nat
  machines : List PRT_MACHINEINST
  numMachines : Nat
  schedulingPolicy : Nat
  schedulerInfo : Option PRT_COOPERATIVE_SCHEDULER
  terminating : Bool
  deriving Inhabited

/-- PrtStartProcess of Prt.c (locks and callbacks are outside the embedding). -/
def PrtStartProcess (guid : PRT_GUID) (program : PRT_PROGRAMDECL) : PRT_PROCESS_PRIV :=
  { guid := guid
    program := program
    machineCount := 0
    machines := []
    numMachines := 0
    schedulingPolicy := PRT_SCHEDULINGPOLICY_TASKNEUTRAL
    schedulerInfo := none
    terminating := false }

/-- Modelled from the spec: PrtMkMachinePrivate (PrtExecution.c, not under src).
Per spec section 4.2 it allocates the instance, assigns it the next machineId
equal to machineCount + 1, appends it to the machine table, and clones the
payload into its initial locals; the C caller passes the resolved symbolicName
and instanceOf, which become the fields of the same name. -/
def PrtMkMachinePrivate (process : PRT_PROCESS_PRIV) (symbolicName instanceOf : Nat)
    (payload : Option PrtValue) : PRT_PROCESS_PRIV × PRT_MACHINEINST :=
  let machineId := process.machineCount + 1
  let inst : PRT_MACHINEINST :=
    { id := { processId := process.guid, machineId := machineId }
      instanceOf := instanceOf
      symbolicName := symbolicName
      initialPayload := payload.map PrtCloneValue }
  ({ process with
      machineCount := machineId
      machines := process.machines ++ [inst]
      numMachines := process.numMachines + 1 }, inst)

/-- One variadic (status, argument) pair of the C calling convention
PRT_FUN_PARAM_STATUS: clone carries the value read from the caller, move carries
the address (a slot index) of the caller slot it takes over. -/
inductive VarArg : Type where
  | clone : PrtValue → VarArg
  | swap : VarArg
  | move : Nat → VarArg

/-- The variadic intake loop that appears verbatim in PrtSend, PrtSendInternal,
PrtMkMachine and PrtMkSymbolicMachine: for each (status, arg) pair, CLONE deep
copies the value, SWAP hits the fatal assertion with the message naming the
enclosing function, MOVE takes the value out of the caller slot and nulls the
slot.  The caller slots are the explicit state; the result is the collected
args array together with the final slots. -/
def PrtCollectArgs (fname : String) :
    List VarArg → List (Option PrtValue) →
    Except String (List (Option PrtValue) × List (Option PrtValue))
  | [], slots => Except.ok ([], slots)
  | VarArg.clone v :: rest, slots =>
    match PrtCollectArgs fname rest slots with
    | Except.error e => Except.error e
    | Except.ok (vs, slots') => Except.ok (some (PrtCloneValue v) :: vs, slots')
  | VarArg.swap :: _, _ => Except.error ("Illegal parameter type in " ++ fname)
  | VarArg.move k :: rest, slots =>
    match PrtCollectArgs fname rest (slots.set k none) with
    | Except.error e => Except.error e
    | Except.ok (vs, slots') => Except.ok (slots.getD k none :: vs, slots')

/-- Modelled from the spec: PrtGetPayloadType (PrtExecution.c, not under src)
returns the receiver side declared payload type for the event, which the program
tables record in the type field of the event declaration. -/
def PrtGetPayloadType (receiver : PRT_MACHINEINST) (program : PRT_PROGRAMDECL)
    (event : PrtValue) : Nat :=
  match event with
  | PrtValue.event i => (program.events.getD i default).type
  | _ => 0

/-- PRT_MACHINESTATE: the snapshot structure passed to callbacks and to
PrtSend (fields as filled in by PrtGetMachineState). -/
structure PRT_MACHINESTATE where
  machineId : Nat
  machineName : String
  stateId : Nat
  stateName : String
  deriving Inhabited

/-- PrtSend of Prt.c.  The embedding returns the payload that the C code hands
to PrtSendPrivate together with the final caller slots; program stands for the
program table reached through the receiver process pointer. -/
def PrtSend (senderState : PRT_MACHINESTATE) (receiver : PRT_MACHINEINST)
    (program : PRT_PROGRAMDECL) (event : PrtValue) (args : List VarArg)
    (slots : List (Option PrtValue)) :
    Except String (Option PrtValue × List (Option PrtValue)) :=
  if args.length = 0 then
    Except.ok (some PrtMkNullValue, slots)
  else
    match PrtCollectArgs ("PrtSend") args slots with
    | Except.error e => Except.error e
    | Except.ok (vals, slots') =>
      if 1 < args.length then
        Except.ok (some (MakeTupleFromArray (PrtGetPayloadType receiver program event) vals),
          slots')
      else
        Except.ok (vals.headD none, slots')

/-- PrtSendInternal of Prt.c: identical intake and payload computation, with the
sender state snapshot taken from the sender (the snapshot flows only to the
external PrtSendPrivate and is not observable in the embedding). -/
def PrtSendInternal (sender : PRT_MACHINEINST) (receiver : PRT_MACHINEINST)
    (program : PRT_PROGRAMDECL) (event : PrtValue) (args : List VarArg)
    (slots : List (Option PrtValue)) :
    Except String (Option PrtValue × List (Option PrtValue)) :=
  if args.length = 0 then
    Except.ok (some PrtMkNullValue, slots)
  else
    match PrtCollectArgs ("PrtSendInternal") args slots with
    | Except.error e => Except.error e
    | Except.ok (vals, slots') =>
      if 1 < args.length then
        Except.ok (some (MakeTupleFromArray (PrtGetPayloadType receiver program event) vals),
          slots')
      else
        Except.ok (vals.headD none, slots')

/-- PrtMkMachine of Prt.c: resolves instanceOf through machineDefMap, collects
the variadic arguments, packs a tuple typed by the initial state entry function
when more than one argument is given, and creates the machine. -/
def PrtMkMachine (process : PRT_PROCESS_PRIV) (symbolicMachineName : Nat)
    (args : List VarArg) (slots : List (Option PrtValue)) :
    Except String (PRT_PROCESS_PRIV × PRT_MACHINEINST × List (Option PrtValue)) :=
  let instanceOf := process.program.machineDefMap symbolicMachineName
  if args.length = 0 then
    let r := PrtMkMachinePrivate process symbolicMachineName instanceOf (some PrtMkNullValue)
    Except.ok (r.1, r.2, slots)
  else
    match PrtCollectArgs ("PrtMkMachine") args slots with
    | Except.error e => Except.error e
    | Except.ok (vals, slots') =>
      let payload :=
        if 1 < args.length then
          let machineDecl := process.program.machines.getD instanceOf default
          let entryFun := (machineDecl.states.getD machineDecl.initStateIndex default).entryFun
          some (MakeTupleFromArray entryFun.payloadType vals)
        else vals.headD none
      let r := PrtMkMachinePrivate process symbolicMachineName instanceOf payload
      Except.ok (r.1, r.2, slots')

/-- PrtMkSymbolicMachine of Prt.c: resolves the child symbolic name through
linkMap from the creator symbolicName and the child index, then proceeds as
PrtMkMachine; process stands for the process reached through the creator. -/
def PrtMkSymbolicMachine (process : PRT_PROCESS_PRIV) (creator : PRT_MACHINEINST)
    (IorM : Nat) (args : List VarArg) (slots : List (Option PrtValue)) :
    Except String (PRT_PROCESS_PRIV × PRT_MACHINEINST × List (Option PrtValue)) :=
  let symbolicName := process.program.linkMap creator.symbolicName IorM
  let instanceOf := process.program.machineDefMap symbolicName
  if args.length = 0 then
    let r := PrtMkMachinePrivate process symbolicName instanceOf (some PrtMkNullValue)
    Except.ok (r.1, r.2, slots)
  else
    match PrtCollectArgs ("PrtMkSymbolicMachine") args slots with
    | Except.error e => Except.error e
    | Except.ok (vals, slots') =>
      let payload :=
        if 1 < args.length then
          let machineDecl := process.program.machines.getD instanceOf default
          let entryFun := (machineDecl.states.getD machineDecl.initStateIndex default).entryFun
          some (MakeTupleFromArray entryFun.payloadType vals)
        else vals.headD none
      let r := PrtMkMachinePrivate process symbolicName instanceOf payload
      Except.ok (r.1, r.2, slots')

/-- PrtGetMachine of Prt.c: asserts the value kind is machine id, asserts the
1-based id is within bounds, and returns the instance at machineId - 1.  The
cross-process GUID assertion present in the source is commented out there and is
therefore absent here. -/
def PrtGetMachine (process : PRT_PROCESS_PRIV) (id : PrtValue) :
    Except String PRT_MACHINEINST :=
  match id with
  | PrtValue.mid m =>
    if 0 < m.machineId ∧ m.machineId ≤ process.numMachines then
      Except.ok (process.machines.getD (m.machineId - 1) default)
    else
      Except.error ("id out of bounds")
  | _ => Except.error ("id is not legal PRT_MACHINEID")

/-- Follows the words of the spec, for comparison with PrtGetMachine: the spec
requires the cross-process GUID check, reporting InvalidMachineId when the GUID
embedded in the machine-id value differs from the process GUID. -/
def PrtGetMachineSpec (process : PRT_PROCESS_PRIV) (id : PrtValue) :
    Except String PRT_MACHINEINST :=
  match id with
  | PrtValue.mid m =>
    if m.processId = process.guid then
      if 0 < m.machineId ∧ m.machineId ≤ process.numMachines then
        Except.ok (process.machines.getD (m.machineId - 1) default)
      else
        Except.error ("id out of bounds")
    else
      Except.error ("InvalidMachineId")
  | _ => Except.error ("id is not legal PRT_MACHINEID")

/-- Observable resource actions of PrtSetSchedulingPolicy beyond the process
record itself. -/
inductive SchedEffect : Type where
  | destroySemaphore : Nat → SchedEffect
  | freeSchedulerRecord : SchedEffect
  | assertionFailure : String → SchedEffect
  deriving DecidableEq

/-- PrtDestroyCooperativeScheduler of Prt.c: when the record exists, destroy its
two semaphores and free it. -/
def PrtDestroyCooperativeScheduler :
    Option PRT_COOPERATIVE_SCHEDULER → List SchedEffect
  | none => []
  | some info =>
    [SchedEffect.destroySemaphore info.workAvailable,
     SchedEffect.destroySemaphore info.allThreadsStopped,
     SchedEffect.freeSchedulerRecord]

/-- PrtSetSchedulingPolicy of Prt.c.  Note the C order of operations: when the
requested policy differs from the current one, the schedulingPolicy field is
assigned first, and only then is the policy value examined; an unknown value
reaches the fatal assertion with the field already overwritten.  The two fresh
arguments are the handles of the semaphores PrtCreateSemaphore would return. -/
def PrtSetSchedulingPolicy (process : PRT_PROCESS_PRIV) (policy : Nat)
    (freshWorkAvailable freshAllThreadsStopped : Nat) :
    PRT_PROCESS_PRIV × List SchedEffect :=
  if process.schedulingPolicy ≠ policy then
    let process1 := { process with schedulingPolicy := policy }
    if policy = PRT_SCHEDULINGPOLICY_COOPERATIVE then
      ({ process1 with
          schedulerInfo := some
            { workAvailable := freshWorkAvailable
              threadsWaiting := 0
              allThreadsStopped := freshAllThreadsStopped } }, [])
    else if policy = PRT_SCHEDULINGPOLICY_TASKNEUTRAL then
      ({ process1 with schedulerInfo := none },
       PrtDestroyCooperativeScheduler process1.schedulerInfo)
    else
      (process1,
       [SchedEffect.assertionFailure
          ("PrtSetSchedulingPolicy must set either PRT_SCHEDULINGPOLICY_TASKNEUTRAL or PRT_SCHEDULINGPOLICY_COOPERATIVE")])
  else (process, [])

inductive PRT_STEP_RESULT : Type where
  | PRT_STEP_MORE : PRT_STEP_RESULT
  | PRT_STEP_IDLE : PRT_STEP_RESULT
  | PRT_STEP_TERMINATING : PRT_STEP_RESULT
  deriving DecidableEq

/-- Observable actions of one PrtRunProcess iteration. -/
inductive RunEvent : Type where
  | stepProcess : PRT_STEP_RESULT → RunEvent
  | yieldThread : RunEvent
  | waitForWork : Bool → RunEvent
  deriving DecidableEq

/-- PrtRunProcess of Prt.c, driven by an oracle listing, for each loop
iteration, the PrtStepProcess result and the Boolean PrtWaitForWork would
return (the latter consulted only on IDLE).  Returns the trace of observable
actions when the loop returns within the oracle, and none when the oracle is
exhausted with the loop still running. -/
def PrtRunProcess : List (PRT_STEP_RESULT × Bool) → Option (List RunEvent)
  | [] => none
  | (r, w) :: rest =>
    match r with
    | PRT_STEP_RESULT.PRT_STEP_TERMINATING =>
      some [RunEvent.stepProcess PRT_STEP_RESULT.PRT_STEP_TERMINATING]
    | PRT_STEP_RESULT.PRT_STEP_IDLE =>
      if w then
        some [RunEvent.stepProcess PRT_STEP_RESULT.PRT_STEP_IDLE, RunEvent.waitForWork true]
      else
        (PrtRunProcess rest).map
          (fun t => RunEvent.stepProcess PRT_STEP_RESULT.PRT_STEP_IDLE ::
            RunEvent.waitForWork false :: t)
    | PRT_STEP_RESULT.PRT_STEP_MORE =>
      (PrtRunProcess rest).map
        (fun t => RunEvent.stepProcess PRT_STEP_RESULT.PRT_STEP_MORE ::
          RunEvent.yieldThread :: t)

/-- A loop iteration outcome on which PrtRunProcess returns: a TERMINATING step,
or an IDLE step whose PrtWaitForWork reports the process terminating. -/
def loopExits : PRT_STEP_RESULT × Bool → Bool
  | (PRT_STEP_RESULT.PRT_STEP_TERMINATING, _) => true
  | (PRT_STEP_RESULT.PRT_STEP_IDLE, w) => w
  | (PRT_STEP_RESULT.PRT_STEP_MORE, _) => false

/-- The observable actions of one non-returning loop iteration: a MORE step is
followed by a thread yield, a non-terminating IDLE step by parking on
PrtWaitForWork. -/
def contEvents : PRT_STEP_RESULT × Bool → List RunEvent
  | (PRT_STEP_RESULT.PRT_STEP_MORE, _) =>
    [RunEvent.stepProcess PRT_STEP_RESULT.PRT_STEP_MORE, RunEvent.yieldThread]
  | (PRT_STEP_RESULT.PRT_STEP_IDLE, w) =>
    [RunEvent.stepProcess PRT_STEP_RESULT.PRT_STEP_IDLE, RunEvent.waitForWork w]
  | (PRT_STEP_RESULT.PRT_STEP_TERMINATING, _) => []

/-- The observable actions of the returning iteration: TERMINATING returns right
after the step, IDLE returns after parking reported termination. -/
def exitEvents : PRT_STEP_RESULT × Bool → List RunEvent
  | (PRT_STEP_RESULT.PRT_STEP_TERMINATING, _) =>
    [RunEvent.stepProcess PRT_STEP_RESULT.PRT_STEP_TERMINATING]
  | (PRT_STEP_RESULT.PRT_STEP_IDLE, _) =>
    [RunEvent.stepProcess PRT_STEP_RESULT.PRT_STEP_IDLE, RunEvent.waitForWork true]
  | (PRT_STEP_RESULT.PRT_STEP_MORE, _) => []

/-- The payload type of the entry function of the initial state of the machine
declaration at the given index: the type the creation surface uses when packing
more than one argument. -/
def initialEntryPayloadType (program : PRT_PROGRAMDECL) (instanceOf : Nat) : Nat :=
  let machineDecl := program.machines.getD instanceOf default
  (machineDecl.states.getD machineDecl.initStateIndex default).entryFun.payloadType

/-- Boolean success test for Except results. -/
def exceptOk {ε α : Type} : Except ε α → Bool
  | Except.ok _ => true
  | Except.error _ => false

/-! Concrete instances used to evaluate the embedded operations on closed
inputs. -/

def guidA : PRT_GUID := { data1 := 1, data2 := 2, data3 := 3, data4 := 4 }

def guidB : PRT_GUID := { data1 := 5, data2 := 6, data3 := 7, data4 := 8 }

def eventPing : PRT_EVENTDECL :=
  { declIndex := 0, name := "PING", eventMaxInstances := 1, type := 11 }

def eventPong : PRT_EVENTDECL :=
  { declIndex := 0, name := "PONG", eventMaxInstances := 1, type := 12 }

def entryFunW : PRT_FUNDECL := { name := "S0entry", payloadType := 21 }

def exitFunW : PRT_FUNDECL := { name := "S0exit", payloadType := 0 }

def stateS0 : PRT_STATEDECL :=
  { name := "S0", entryFun := entryFunW, exitFun := exitFunW }

def machM : PRT_MACHINEDECL :=
  { declIndex := 0, name := "M", maxQueueSize := 4, initStateIndex := 0,
    states := [stateS0] }

def ftF : PRT_FOREIGNTYPEDECL := { declIndex := 0, name := "F" }

/-- A small program table: link map sends symbolic parent 3, child index 2 to
symbolic name 7; the machine definition map sends symbolic name 7 to machine
index 5 and every other symbolic name to machine index 0. -/
def progW : PRT_PROGRAMDECL :=
  { events := [eventPing, eventPong]
    machines := [machM]
    foreignTypes := [ftF]
    linkMap := fun p k => if p = 3 ∧ k = 2 then 7 else 0
    machineDefMap := fun q => if q = 7 then 5 else 0 }

def processW : PRT_PROCESS_PRIV := PrtStartProcess guidA progW

def creatorW : PRT_MACHINEINST :=
  { id := { processId := guidA, machineId := 1 }, instanceOf := 0,
    symbolicName := 3, initialPayload := none }

def instA : PRT_MACHINEINST :=
  { id := { processId := guidA, machineId := 1 }, instanceOf := 0,
    symbolicName := 0, initialPayload := some PrtValue.null }

def procA : PRT_PROCESS_PRIV :=
  { guid := guidA, program := progW, machineCount := 1, machines := [instA],
    numMachines := 1, schedulingPolicy := PRT_SCHEDULINGPOLICY_TASKNEUTRAL,
    schedulerInfo := none, terminating := false }

def midOkA : PRT_MACHINEID := { processId := guidA, machineId := 1 }

def okId : PrtValue := PrtValue.mid midOkA

/-- A machine-id value carrying a GUID of a different process. -/
def foreignId : PrtValue :=
  PrtValue.mid { processId := guidB, machineId := 1 }

/-! Helper lemmas about list slots and the shared variadic intake loop. -/

theorem getD_set_of_ne {α : Type} :
    ∀ (l : List α) (j k : Nat), j ≠ k → ∀ (v d : α),
      (l.set j v).getD k d = l.getD k d := by
  intro l
  induction l with
  | nil => intro j k h v d; rfl
  | cons x xs ih =>
    intro j k h v d
    cases j with
    | zero =>
      cases k with
      | zero => exact absurd rfl h
      | succ k => simp [List.set]
    | succ j =>
      cases k with
      | zero => simp [List.set]
      | succ k =>
        simp only [List.set, List.getD_cons_succ]
        exact ih j k (fun e => h (by rw [e])) v d

theorem getD_set_self_none {α : Type} :
    ∀ (l : List (Option α)) (k : Nat), (l.set k none).getD k none = none := by
  intro l
  induction l with
  | nil => intro k; rfl
  | cons x xs ih =>
    intro k
    cases k with
    | zero => simp [List.set]
    | succ k =>
      simp only [List.set, List.getD_cons_succ]
      exact ih k

theorem collect_lengths (fname : String) :
    ∀ (args : List VarArg) (slots vals slots' : List (Option PrtValue)),
      PrtCollectArgs fname args slots = Except.ok (vals, slots') →
      vals.length = args.length ∧ slots'.length = slots.length := by
  intro args
  induction args with
  | nil =>
    intro slots vals slots' h
    simp only [PrtCollectArgs, Except.ok.injEq, Prod.mk.injEq] at h
    obtain ⟨h1, h2⟩ := h
    subst h1; subst h2
    exact ⟨rfl, rfl⟩
  | cons a rest ih =>
    intro slots vals slots' h
    cases a with
    | clone v =>
      simp only [PrtCollectArgs] at h
      cases hr : PrtCollectArgs fname rest slots with
      | error e => rw [hr] at h; simp at h
      | ok p =>
        obtain ⟨vs, s'⟩ := p
        rw [hr] at h
        simp only [Except.ok.injEq, Prod.mk.injEq] at h
        obtain ⟨h1, h2⟩ := h
        subst h1; subst h2
        obtain ⟨l1, l2⟩ := ih slots vs s' hr
        exact ⟨by simp [l1], l2⟩
    | swap => simp [PrtCollectArgs] at h
    | move k =>
      simp only [PrtCollectArgs] at h
      cases hr : PrtCollectArgs fname rest (slots.set k none) with
      | error e => rw [hr] at h; simp at h
      | ok p =>
        obtain ⟨vs, s'⟩ := p
        rw [hr] at h
        simp only [Except.ok.injEq, Prod.mk.injEq] at h
        obtain ⟨h1, h2⟩ := h
        subst h1; subst h2
        obtain ⟨l1, l2⟩ := ih _ vs s' hr
        refine ⟨by simp [l1], ?_⟩
        rw [l2, List.length_set]

theorem collect_stable_none (fname : String) :
    ∀ (args : List VarArg) (slots vals slots' : List (Option PrtValue)) (k : Nat),
      PrtCollectArgs fname args slots = Except.ok (vals, slots') →
      slots.getD k none = none → slots'.getD k none = none := by
  intro args
  induction args with
  | nil =>
    intro slots vals slots' k h hk
    simp only [PrtCollectArgs, Except.ok.injEq, Prod.mk.injEq] at h
    obtain ⟨h1, h2⟩ := h
    subst h2
    exact hk
  | cons a rest ih =>
    intro slots vals slots' k h hk
    cases a with
    | clone v =>
      simp only [PrtCollectArgs] at h
      cases hr : PrtCollectArgs fname rest slots with
      | error e => rw [hr] at h; simp at h
      | ok p =>
        obtain ⟨vs, s'⟩ := p
        rw [hr] at h
        simp only [Except.ok.injEq, Prod.mk.injEq] at h
        obtain ⟨h1, h2⟩ := h
        rw [← h2]
        exact ih slots vs s' k hr hk
    | swap => simp [PrtCollectArgs] at h
    | move j =>
      simp only [PrtCollectArgs] at h
      cases hr : PrtCollectArgs fname rest (slots.set j none) with
      | error e => rw [hr] at h; simp at h
      | ok p =>
        obtain ⟨vs, s'⟩ := p
        rw [hr] at h
        simp only [Except.ok.injEq, Prod.mk.injEq] at h
        obtain ⟨h1, h2⟩ := h
        rw [← h2]
        refine ih _ vs s' k hr ?_
        by_cases hjk : j = k
        · subst hjk; exact getD_set_self_none slots j
        · rw [getD_set_of_ne slots j k hjk]; exact hk

theorem collect_untouched (fname : String) :
    ∀ (args : List VarArg) (slots vals slots' : List (Option PrtValue)) (k : Nat),
      PrtCollectArgs fname args slots = Except.ok (vals, slots') →
      VarArg.move k ∉ args → slots'.getD k none = slots.getD k none := by
  intro args
  induction args with
  | nil =>
    intro slots vals slots' k h hmem
    simp only [PrtCollectArgs, Except.ok.injEq, Prod.mk.injEq] at h
    obtain ⟨h1, h2⟩ := h
    subst h2
    rfl
  | cons a rest ih =>
    intro slots vals slots' k h hmem
    have hhead : VarArg.move k ≠ a := fun e => hmem (e ▸ List.mem_cons_self a rest)
    have hrest : VarArg.move k ∉ rest := fun e => hmem (List.mem_cons_of_mem a e)
    cases a with
    | clone v =>
      simp only [PrtCollectArgs] at h
      cases hr : PrtCollectArgs fname rest slots with
      | error e => rw [hr] at h; simp at h
      | ok p =>
        obtain ⟨vs, s'⟩ := p
        rw [hr] at h
        simp only [Except.ok.injEq, Prod.mk.injEq] at h
        obtain ⟨h1, h2⟩ := h
        rw [← h2]
        exact ih slots vs s' k hr hrest
    | swap => simp [PrtCollectArgs] at h
    | move j =>
      have hjk : j ≠ k := fun e => hhead (by rw [e])
      simp only [PrtCollectArgs] at h
      cases hr : PrtCollectArgs fname rest (slots.set j none) with
      | error e => rw [hr] at h; simp at h
      | ok p =>
        obtain ⟨vs, s'⟩ := p
        rw [hr] at h
        simp only [Except.ok.injEq, Prod.mk.injEq] at h
        obtain ⟨h1, h2⟩ := h
        rw [← h2]
        rw [ih _ vs s' k hr hrest]
        exact getD_set_of_ne slots j k hjk none none

theorem collect_move_final_none (fname : String) :
    ∀ (args : List VarArg) (slots vals slots' : List (Option PrtValue)) (k : Nat),
      PrtCollectArgs fname args slots = Except.ok (vals, slots') →
      VarArg.move k ∈ args → slots'.getD k none = none := by
  intro args
  induction args with
  | nil => intro slots vals slots' k h hmem; cases hmem
  | cons a rest ih =>
    intro slots vals slots' k h hmem
    cases a with
    | clone v =>
      simp only [PrtCollectArgs] at h
      cases hr : PrtCollectArgs fname rest slots with
      | error e => rw [hr] at h; simp at h
      | ok p =>
        obtain ⟨vs, s'⟩ := p
        rw [hr] at h
        simp only [Except.ok.injEq, Prod.mk.injEq] at h
        obtain ⟨h1, h2⟩ := h
        rw [← h2]
        have hrest : VarArg.move k ∈ rest := by
          cases List.mem_cons.mp hmem with
          | inl he => cases he
          | inr he => exact he
        exact ih slots vs s' k hr hrest
    | swap => simp [PrtCollectArgs] at h
    | move j =>
      simp only [PrtCollectArgs] at h
      cases hr : PrtCollectArgs fname rest (slots.set j none) with
      | error e => rw [hr] at h; simp at h
      | ok p =>
        obtain ⟨vs, s'⟩ := p
        rw [hr] at h
        simp only [Except.ok.injEq, Prod.mk.injEq] at h
        obtain ⟨h1, h2⟩ := h
        rw [← h2]
        by_cases hjk : j = k
        · subst hjk
          exact collect_stable_none fname rest _ vs s' j hr (getD_set_self_none slots j)
        · have hrest : VarArg.move k ∈ rest := by
            cases List.mem_cons.mp hmem with
            | inl he => cases he; exact absurd rfl hjk
            | inr he => exact he
          exact ih _ vs s' k hr hrest

theorem collect_clone_at (fname : String) :
    ∀ (pre : List VarArg) (v : PrtValue) (post : List VarArg)
      (slots vals slots' : List (Option PrtValue)),
      PrtCollectArgs fname (pre ++ VarArg.clone v :: post) slots = Except.ok (vals, slots') →
      vals.getD pre.length none = some (PrtCloneValue v) := by
  intro pre
  induction pre with
  | nil =>
    intro v post slots vals slots' h
    simp only [List.nil_append, PrtCollectArgs, List.append_eq] at h
    cases hr : PrtCollectArgs fname post slots with
    | error e => rw [hr] at h; simp at h
    | ok p =>
      obtain ⟨vs, s'⟩ := p
      rw [hr] at h
      simp only [Except.ok.injEq, Prod.mk.injEq] at h
      obtain ⟨h1, h2⟩ := h
      subst h1
      rfl
  | cons a pre' ih =>
    intro v post slots vals slots' h
    cases a with
    | clone u =>
      simp only [List.cons_append, PrtCollectArgs, List.append_eq] at h
      cases hr : PrtCollectArgs fname (pre' ++ VarArg.clone v :: post) slots with
      | error e => rw [hr] at h; simp at h
      | ok p =>
        obtain ⟨vs, s'⟩ := p
        rw [hr] at h
        simp only [Except.ok.injEq, Prod.mk.injEq] at h
        obtain ⟨h1, h2⟩ := h
        subst h1
        simpa using ih v post slots vs s' hr
    | swap => simp [PrtCollectArgs] at h
    | move j =>
      simp only [List.cons_append, PrtCollectArgs, List.append_eq] at h
      cases hr : PrtCollectArgs fname (pre' ++ VarArg.clone v :: post) (slots.set j none) with
      | error e => rw [hr] at h; simp at h
      | ok p =>
        obtain ⟨vs, s'⟩ := p
        rw [hr] at h
        simp only [Except.ok.injEq, Prod.mk.injEq] at h
        obtain ⟨h1, h2⟩ := h
        subst h1
        simpa using ih v post _ vs s' hr

theorem collect_move_at (fname : String) :
    ∀ (pre : List VarArg) (k : Nat) (post : List VarArg)
      (slots vals slots' : List (Option PrtValue)),
      PrtCollectArgs fname (pre ++ VarArg.move k :: post) slots = Except.ok (vals, slots') →
      VarArg.move k ∉ pre →
      vals.getD pre.length none = slots.getD k none := by
  intro pre
  induction pre with
  | nil =>
    intro k post slots vals slots' h hmem
    simp only [List.nil_append, PrtCollectArgs, List.append_eq] at h
    cases hr : PrtCollectArgs fname post (slots.set k none) with
    | error e => rw [hr] at h; simp at h
    | ok p =>
      obtain ⟨vs, s'⟩ := p
      rw [hr] at h
      simp only [Except.ok.injEq, Prod.mk.injEq] at h
      obtain ⟨h1, h2⟩ := h
      subst h1
      rfl
  | cons a pre' ih =>
    intro k post slots vals slots' h hmem
    have hhead : VarArg.move k ≠ a := fun e => hmem (e ▸ List.mem_cons_self a pre')
    have hrest : VarArg.move k ∉ pre' := fun e => hmem (List.mem_cons_of_mem a e)
    cases a with
    | clone u =>
      simp only [List.cons_append, PrtCollectArgs, List.append_eq] at h
      cases hr : PrtCollectArgs fname (pre' ++ VarArg.move k :: post) slots with
      | error e => rw [hr] at h; simp at h
      | ok p =>
        obtain ⟨vs, s'⟩ := p
        rw [hr] at h
        simp only [Except.ok.injEq, Prod.mk.injEq] at h
        obtain ⟨h1, h2⟩ := h
        subst h1
        simpa using ih k post slots vs s' hr hrest
    | swap => simp [PrtCollectArgs] at h
    | move j =>
      have hjk : j ≠ k := fun e => hhead (by rw [e])
      simp only [List.cons_append, PrtCollectArgs, List.append_eq] at h
      cases hr : PrtCollectArgs fname (pre' ++ VarArg.move k :: post) (slots.set j none) with
      | error e => rw [hr] at h; simp at h
      | ok p =>
        obtain ⟨vs, s'⟩ := p
        rw [hr] at h
        simp only [Except.ok.injEq, Prod.mk.injEq] at h
        obtain ⟨h1, h2⟩ := h
        subst h1
        have := ih k post _ vs s' hr hrest
        rw [getD_set_of_ne slots j k hjk none none] at this
        simpa using this

theorem collect_swap_error (fname : String) :
    ∀ (args : List VarArg) (slots : List (Option PrtValue)),
      VarArg.swap ∈ args →
      PrtCollectArgs fname args slots =
        Except.error ("Illegal parameter type in " ++ fname) := by
  intro args
  induction args with
  | nil => intro slots hmem; cases hmem
  | cons a rest ih =>
    intro slots hmem
    cases a with
    | clone v =>
      have hrest : VarArg.swap ∈ rest := by
        cases List.mem_cons.mp hmem with
        | inl he => cases he
        | inr he => exact he
      simp only [PrtCollectArgs]
      rw [ih slots hrest]
    | swap => rfl
    | move j =>
      have hrest : VarArg.swap ∈ rest := by
        cases List.mem_cons.mp hmem with
        | inl he => cases he
        | inr he => exact he
      simp only [PrtCollectArgs]
      rw [ih (slots.set j none) hrest]

theorem assignIdx_length {α : Type} (set : Nat → α → α) :
    ∀ (n : Nat) (l : List α), (assignIdx set n l).length = l.length := by
  intro n l
  induction l generalizing n with
  | nil => rfl
  | cons x xs ih => simp [assignIdx, ih]

theorem assignIdx_getD {α : Type} (set : Nat → α → α) (d : α) :
    ∀ (l : List α) (n i : Nat), i < l.length →
      (assignIdx set n l).getD i d = set (n + i) (l.getD i d) := by
  intro l
  induction l with
  | nil => intro n i hi; cases hi
  | cons x xs ih =>
    intro n i hi
    cases i with
    | zero => simp [assignIdx]
    | succ i =>
      simp only [assignIdx, List.getD_cons_succ]
      rw [ih (n + 1) i (by simpa using Nat.lt_of_succ_lt_succ hi)]
      have harith : n + 1 + i = n + (i + 1) := by omega
      rw [harith]

/-! Claim theorems. -/

/-- C9: after PrtInitialize returns, declIndex values are dense: for every i
below the event count, events i has declIndex i; for every j below the machine
count, machines j has declIndex j; and for every k below the foreign-type
count, foreignTypes k has declIndex k (lengths are preserved by the scan). -/
theorem prtInitialize_dense_declIndex (program : PRT_PROGRAMDECL) :
    ((PrtInitialize program).events.length = program.events.length ∧
      (PrtInitialize program).machines.length = program.machines.length ∧
      (PrtInitialize program).foreignTypes.length = program.foreignTypes.length) ∧
    (∀ i, i < program.events.length →
      ((PrtInitialize program).events.getD i default).declIndex = i) ∧
    (∀ i, i < program.machines.length →
      ((PrtInitialize program).machines.getD i default).declIndex = i) ∧
    (∀ i, i < program.foreignTypes.length →
      ((PrtInitialize program).foreignTypes.getD i default).declIndex = i) := by
  refine ⟨⟨?_, ?_, ?_⟩, ?_, ?_, ?_⟩
  · exact assignIdx_length _ 0 program.events
  · exact assignIdx_length _ 0 program.machines
  · exact assignIdx_length _ 0 program.foreignTypes
  · intro i hi
    have h := assignIdx_getD (fun i e => { e with declIndex := i }) default
      program.events 0 i hi
    simp only [PrtInitialize] at *
    rw [h]
    simp
  · intro i hi
    have h := assignIdx_getD (fun i m => { m with declIndex := i }) default
      program.machines 0 i hi
    simp only [PrtInitialize] at *
    rw [h]
    simp
  · intro i hi
    have h := assignIdx_getD (fun i f => { f with declIndex := i }) default
      program.foreignTypes 0 i hi
    simp only [PrtInitialize] at *
    rw [h]
    simp

/-- Witness for C9 at the concrete program progW: the second event receives
declIndex 1. -/
theorem prtInitialize_dense_declIndex_witness :
    1 < progW.events.length ∧
    ((PrtInitialize progW).events.getD 1 default).declIndex = 1 :=
  ⟨by decide, (prtInitialize_dense_declIndex progW).2.1 1 (by decide)⟩

/-- C10: with zero variadic arguments, PrtSend hands PrtSendPrivate a freshly
made null value as the payload, and PrtMkMachine and PrtMkSymbolicMachine hand
PrtMkMachinePrivate a freshly made null value, which becomes the initial
payload of the created instance; in all three cases the payload is
some PrtMkNullValue, never the absent pointer none. -/
theorem zero_args_payload_is_null_value :
    (∀ st receiver program event slots,
      PrtSend st receiver program event [] slots =
        Except.ok (some PrtMkNullValue, slots)) ∧
    (∀ process sym slots,
      (PrtMkMachine process sym [] slots).map (fun r => r.2.1.initialPayload) =
        Except.ok (some PrtMkNullValue)) ∧
    (∀ process creator IorM slots,
      (PrtMkSymbolicMachine process creator IorM [] slots).map
          (fun r => r.2.1.initialPayload) =
        Except.ok (some PrtMkNullValue)) :=
  ⟨fun _ _ _ _ _ => rfl, fun _ _ _ => rfl, fun _ _ _ _ => rfl⟩

/-- C5: PrtGetMachine on a machine-id value checks 0 < machineId and
machineId below or at numMachines and returns the instance at machineId - 1 of
the machine table; out of bounds is the fatal bounds assertion, and a value of
any other kind is the fatal kind assertion. -/
theorem prtGetMachine_bounds_and_lookup (process : PRT_PROCESS_PRIV) (id : PrtValue) :
    (∀ m, id = PrtValue.mid m →
      ((0 < m.machineId ∧ m.machineId ≤ process.numMachines →
        PrtGetMachine process id =
          Except.ok (process.machines.getD (m.machineId - 1) default)) ∧
      (¬(0 < m.machineId ∧ m.machineId ≤ process.numMachines) →
        PrtGetMachine process id = Except.error ("id out of bounds")))) ∧
    ((∀ m, id ≠ PrtValue.mid m) →
      PrtGetMachine process id = Except.error ("id is not legal PRT_MACHINEID")) := by
  constructor
  · intro m hm
    subst hm
    constructor
    · intro h
      simp [PrtGetMachine, h]
    · intro h
      simp [PrtGetMachine, h]
  · intro hall
    cases id with
    | mid m => exact absurd rfl (hall m)
    | null => rfl
    | boolean b => rfl
    | integer n => rfl
    | event i => rfl
    | tuple t es => rfl

/-- Witness for C5 at the concrete process procA and the in-bounds id okId. -/
theorem prtGetMachine_bounds_and_lookup_witness :
    PrtGetMachine procA okId = Except.ok instA := by
  have h := ((prtGetMachine_bounds_and_lookup procA okId).1 midOkA rfl).1 (by decide)
  exact h.trans rfl

/-- C6: the code at the failing input: a machine-id value whose embedded GUID
differs from the process GUID is accepted by PrtGetMachine as written (the
cross-process GUID assertion is commented out in the source), while the
required behavior, PrtGetMachineSpec following the words of the spec, reports
InvalidMachineId. -/
theorem prtGetMachine_guid_check_missing :
    guidB ≠ guidA ∧
    PrtGetMachine procA foreignId = Except.ok instA ∧
    PrtGetMachineSpec procA foreignId = Except.error ("InvalidMachineId") := by
  refine ⟨by decide, ?_, ?_⟩ <;> rfl

/-- C7 (amended): PrtSetSchedulingPolicy accepts exactly TASK_NEUTRAL and
COOPERATIVE and any other value reaches the fatal assertion; switching from
COOPERATIVE to TASK_NEUTRAL destroys the two semaphores of the cooperative
record, frees it, and nulls the scheduler-info pointer; switching to
COOPERATIVE installs a fresh record with zero waiting threads.  However, on an
invalid value the schedulingPolicy field has already been overwritten with that
value when the assertion fires (the scheduler info is untouched), so the
process state is not unchanged on rejection. -/
theorem prtSetSchedulingPolicy_behavior (p : PRT_PROCESS_PRIV) (policy s1 s2 : Nat) :
    ((policy = PRT_SCHEDULINGPOLICY_TASKNEUTRAL ∨
        policy = PRT_SCHEDULINGPOLICY_COOPERATIVE) →
      ∀ msg, SchedEffect.assertionFailure msg ∉ (PrtSetSchedulingPolicy p policy s1 s2).2) ∧
    (policy ≠ PRT_SCHEDULINGPOLICY_TASKNEUTRAL →
      policy ≠ PRT_SCHEDULINGPOLICY_COOPERATIVE →
      p.schedulingPolicy ≠ policy →
      PrtSetSchedulingPolicy p policy s1 s2 =
        ({ p with schedulingPolicy := policy },
         [SchedEffect.assertionFailure
            ("PrtSetSchedulingPolicy must set either PRT_SCHEDULINGPOLICY_TASKNEUTRAL or PRT_SCHEDULINGPOLICY_COOPERATIVE")])) ∧
    (∀ info, p.schedulingPolicy = PRT_SCHEDULINGPOLICY_COOPERATIVE →
      policy = PRT_SCHEDULINGPOLICY_TASKNEUTRAL → p.schedulerInfo = some info →
      PrtSetSchedulingPolicy p policy s1 s2 =
        ({ p with
            schedulingPolicy := PRT_SCHEDULINGPOLICY_TASKNEUTRAL
            schedulerInfo := none },
         [SchedEffect.destroySemaphore info.workAvailable,
          SchedEffect.destroySemaphore info.allThreadsStopped,
          SchedEffect.freeSchedulerRecord])) ∧
    (p.schedulingPolicy ≠ PRT_SCHEDULINGPOLICY_COOPERATIVE →
      policy = PRT_SCHEDULINGPOLICY_COOPERATIVE →
      PrtSetSchedulingPolicy p policy s1 s2 =
        ({ p with
            schedulingPolicy := PRT_SCHEDULINGPOLICY_COOPERATIVE
            schedulerInfo := some
              { workAvailable := s1, threadsWaiting := 0,
                allThreadsStopped := s2 } }, [])) := by
  refine ⟨?_, ?_, ?_, ?_⟩
  · intro hval msg
    by_cases hne : p.schedulingPolicy ≠ policy
    · rcases hval with h | h <;> subst h
      · simp only [PrtSetSchedulingPolicy, if_pos hne,
          PRT_SCHEDULINGPOLICY_TASKNEUTRAL, PRT_SCHEDULINGPOLICY_COOPERATIVE]
        cases hinfo : p.schedulerInfo <;>
          (simp [hinfo, PrtDestroyCooperativeScheduler]
           try split <;> simp)
      · simp only [PrtSetSchedulingPolicy, if_pos hne,
          PRT_SCHEDULINGPOLICY_TASKNEUTRAL, PRT_SCHEDULINGPOLICY_COOPERATIVE]
        simp
        try split <;> simp
    · simp [PrtSetSchedulingPolicy, hne]
  · intro hn0 hn1 hne
    simp only [PrtSetSchedulingPolicy, if_pos hne]
    rw [if_neg hn1, if_neg hn0]
  · intro info hp hpol hinfo
    subst hpol
    have hne : p.schedulingPolicy ≠ PRT_SCHEDULINGPOLICY_TASKNEUTRAL := by
      rw [hp]; decide
    simp only [PrtSetSchedulingPolicy, if_pos hne]
    rw [if_neg (by decide : ¬(PRT_SCHEDULINGPOLICY_TASKNEUTRAL =
      PRT_SCHEDULINGPOLICY_COOPERATIVE))]
    simp only [if_true]
    simp [hinfo, PrtDestroyCooperativeScheduler]
  · intro hp hpol
    subst hpol
    have hne : p.schedulingPolicy ≠ PRT_SCHEDULINGPOLICY_COOPERATIVE := hp
    simp only [PrtSetSchedulingPolicy, if_pos hne]
    simp only [if_true]

/-- Witness for C7 (amended) at concrete inputs: switching the fresh process
processW (task-neutral, no scheduler record) to COOPERATIVE installs a fresh
record with zero waiting threads and no assertion fires. -/
theorem prtSetSchedulingPolicy_behavior_witness :
    PrtSetSchedulingPolicy processW PRT_SCHEDULINGPOLICY_COOPERATIVE 5 6 =
      ({ processW with
          schedulingPolicy := PRT_SCHEDULINGPOLICY_COOPERATIVE
          schedulerInfo := some
            { workAvailable := 5, threadsWaiting := 0, allThreadsStopped := 6 } },
       []) :=
  (prtSetSchedulingPolicy_behavior processW PRT_SCHEDULINGPOLICY_COOPERATIVE 5 6).2.2.2
    (by decide) rfl

/-- C7 counterexample: the invalid policy value 7 applied to the fresh
task-neutral process processW is rejected through the fatal assertion, yet the
process record is changed before rejection: its schedulingPolicy field now
holds 7, refuting the stated claim that the process state is unchanged when an
invalid policy value is rejected. -/
theorem prtSetSchedulingPolicy_mutates_on_invalid :
    processW.schedulingPolicy = PRT_SCHEDULINGPOLICY_TASKNEUTRAL ∧
    (PrtSetSchedulingPolicy processW 7 1 2).2 =
      [SchedEffect.assertionFailure
        ("PrtSetSchedulingPolicy must set either PRT_SCHEDULINGPOLICY_TASKNEUTRAL or PRT_SCHEDULINGPOLICY_COOPERATIVE")] ∧
    (PrtSetSchedulingPolicy processW 7 1 2).1.schedulingPolicy = 7 :=
  ⟨rfl, rfl, rfl⟩

/-- C8: PrtRunProcess driven by an oracle of PrtStepProcess results returns
exactly when the oracle first shows TERMINATING or shows IDLE with
PrtWaitForWork reporting termination: with no such entry the loop never returns
(none), and on return the trace consists of the observable actions of the
non-returning iterations in order (MORE followed by a thread yield, IDLE
followed by parking) ending with the returning iteration. -/
theorem prtRunProcess_loop (oracle : List (PRT_STEP_RESULT × Bool)) :
    (PrtRunProcess oracle = none ↔ ∀ x ∈ oracle, loopExits x = false) ∧
    (∀ trace, PrtRunProcess oracle = some trace →
      ∃ pre e post, oracle = pre ++ e :: post ∧
        (∀ x ∈ pre, loopExits x = false) ∧ loopExits e = true ∧
        trace = (pre.map contEvents).flatten ++ exitEvents e) := by
  induction oracle with
  | nil =>
    constructor
    · simp [PrtRunProcess]
    · intro trace h
      simp [PrtRunProcess] at h
  | cons hd rest ih =>
    obtain ⟨r, w⟩ := hd
    cases r with
    | PRT_STEP_TERMINATING =>
      constructor
      · simp [PrtRunProcess, loopExits]
      · intro trace h
        simp only [PrtRunProcess, Option.some.injEq] at h
        refine ⟨[], (PRT_STEP_RESULT.PRT_STEP_TERMINATING, w), rest, rfl, by simp,
          rfl, ?_⟩
        rw [← h]
        simp [exitEvents]
    | PRT_STEP_IDLE =>
      cases w with
      | true =>
        constructor
        · simp [PrtRunProcess, loopExits]
        · intro trace h
          simp only [PrtRunProcess, if_pos] at h
          simp only [Option.some.injEq] at h
          refine ⟨[], (PRT_STEP_RESULT.PRT_STEP_IDLE, true), rest, rfl, by simp,
            rfl, ?_⟩
          rw [← h]
          simp [exitEvents]
      | false =>
        constructor
        · constructor
          · intro h
            simp only [PrtRunProcess, if_neg (by simp : ¬(false = true)),
              Option.map_eq_none'] at h
            intro x hx
            cases List.mem_cons.mp hx with
            | inl hh => subst hh; rfl
            | inr hh => exact ih.1.mp h x hh
          · intro hall
            have hrest : PrtRunProcess rest = none :=
              ih.1.mpr (fun x hx => hall x (List.mem_cons_of_mem _ hx))
            simp [PrtRunProcess, hrest]
        · intro trace h
          simp only [PrtRunProcess, if_neg (by simp : ¬(false = true)),
            Option.map_eq_some'] at h
          obtain ⟨t, ht, htr⟩ := h
          obtain ⟨pre, e, post, ho, hpre, he, htr'⟩ := ih.2 t ht
          refine ⟨(PRT_STEP_RESULT.PRT_STEP_IDLE, false) :: pre, e, post,
            by simp [ho], ?_, he, ?_⟩
          · intro x hx
            cases List.mem_cons.mp hx with
            | inl hh => subst hh; rfl
            | inr hh => exact hpre x hh
          · rw [← htr, htr']
            simp [contEvents]
    | PRT_STEP_MORE =>
      constructor
      · constructor
        · intro h
          simp only [PrtRunProcess, Option.map_eq_none'] at h
          intro x hx
          cases List.mem_cons.mp hx with
          | inl hh => subst hh; rfl
          | inr hh => exact ih.1.mp h x hh
        · intro hall
          have hrest : PrtRunProcess rest = none :=
            ih.1.mpr (fun x hx => hall x (List.mem_cons_of_mem _ hx))
          simp [PrtRunProcess, hrest]
      · intro trace h
        simp only [PrtRunProcess, Option.map_eq_some'] at h
        obtain ⟨t, ht, htr⟩ := h
        obtain ⟨pre, e, post, ho, hpre, he, htr'⟩ := ih.2 t ht
        refine ⟨(PRT_STEP_RESULT.PRT_STEP_MORE, w) :: pre, e, post,
          by simp [ho], ?_, he, ?_⟩
        · intro x hx
          cases List.mem_cons.mp hx with
          | inl hh => subst hh; rfl
          | inr hh => exact hpre x hh
        · rw [← htr, htr']
          simp [contEvents]

/-- Witness for C8 at a concrete oracle: one MORE iteration, then an IDLE
iteration whose PrtWaitForWork reports termination. -/
theorem prtRunProcess_loop_witness :
    ∃ pre e post,
      ([(PRT_STEP_RESULT.PRT_STEP_MORE, false), (PRT_STEP_RESULT.PRT_STEP_IDLE, true)] :
          List (PRT_STEP_RESULT × Bool)) = pre ++ e :: post ∧
      (∀ x ∈ pre, loopExits x = false) ∧ loopExits e = true ∧
      ([RunEvent.stepProcess PRT_STEP_RESULT.PRT_STEP_MORE, RunEvent.yieldThread,
        RunEvent.stepProcess PRT_STEP_RESULT.PRT_STEP_IDLE,
        RunEvent.waitForWork true] =
        (pre.map contEvents).flatten ++ exitEvents e) :=
  (prtRunProcess_loop _).2 _ rfl

/-- C1: whenever PrtMkSymbolicMachine succeeds, the created instance has
symbolicName equal to linkMap applied to the creator symbolicName and the
child index, and instanceOf equal to machineDefMap applied to that resolved
symbolic name. -/
theorem prtMkSymbolicMachine_resolution (process : PRT_PROCESS_PRIV)
    (creator : PRT_MACHINEINST) (IorM : Nat) (args : List VarArg)
    (slots : List (Option PrtValue))
    (h : exceptOk (PrtMkSymbolicMachine process creator IorM args slots) = true) :
    (PrtMkSymbolicMachine process creator IorM args slots).map
        (fun r => (r.2.1.symbolicName, r.2.1.instanceOf)) =
      Except.ok (process.program.linkMap creator.symbolicName IorM,
        process.program.machineDefMap
          (process.program.linkMap creator.symbolicName IorM)) := by
  by_cases hlen : args.length = 0
  · simp [PrtMkSymbolicMachine, hlen, PrtMkMachinePrivate, Except.map]
  · cases hcol : PrtCollectArgs ("PrtMkSymbolicMachine") args slots with
    | error e =>
      exfalso
      simp [PrtMkSymbolicMachine, hlen, hcol, exceptOk] at h
    | ok pr =>
      obtain ⟨vals, slots'⟩ := pr
      simp [PrtMkSymbolicMachine, hlen, hcol, PrtMkMachinePrivate, Except.map]

/-- Witness for C1 at the concrete process processW whose program links parent
symbolic name 3 and child index 2 to symbolic name 7 and defines symbolic name
7 as machine index 5. -/
theorem prtMkSymbolicMachine_resolution_witness :
    (PrtMkSymbolicMachine processW creatorW 2 [] []).map
        (fun r => (r.2.1.symbolicName, r.2.1.instanceOf)) = Except.ok (7, 5) :=
  (prtMkSymbolicMachine_resolution processW creatorW 2 [] [] rfl).trans rfl

/-- C2: with exactly one variadic argument, send uses the collected value
itself as the payload; with more than one, send packs the collected values
into a tuple typed by the receiver declared payload type of the event; machine
creation (PrtMkMachine, PrtMkSymbolicMachine) with more than one argument
packs the values into a tuple typed by the payload type of the initial state
entry function of the resolved machine declaration. -/
theorem payload_packing_rules :
    (∀ st receiver program event args slots, args.length = 1 →
      (PrtSend st receiver program event args slots).map Prod.fst =
        (PrtCollectArgs ("PrtSend") args slots).map (fun c => c.1.headD none)) ∧
    (∀ st receiver program event args slots, 1 < args.length →
      (PrtSend st receiver program event args slots).map Prod.fst =
        (PrtCollectArgs ("PrtSend") args slots).map
          (fun c => some (MakeTupleFromArray
            (PrtGetPayloadType receiver program event) c.1))) ∧
    (∀ process sym args slots, 1 < args.length →
      (PrtMkMachine process sym args slots).map (fun r => r.2.1.initialPayload) =
        (PrtCollectArgs ("PrtMkMachine") args slots).map
          (fun c => some (MakeTupleFromArray
            (initialEntryPayloadType process.program
              (process.program.machineDefMap sym)) c.1))) ∧
    (∀ process creator IorM args slots, 1 < args.length →
      (PrtMkSymbolicMachine process creator IorM args slots).map
          (fun r => r.2.1.initialPayload) =
        (PrtCollectArgs ("PrtMkSymbolicMachine") args slots).map
          (fun c => some (MakeTupleFromArray
            (initialEntryPayloadType process.program
              (process.program.machineDefMap
                (process.program.linkMap creator.symbolicName IorM))) c.1))) := by
  refine ⟨?_, ?_, ?_, ?_⟩
  · intro st receiver program event args slots h1
    cases hcol : PrtCollectArgs ("PrtSend") args slots with
    | error e => simp [PrtSend, h1, hcol, Except.map]
    | ok pr =>
      obtain ⟨vals, slots'⟩ := pr
      simp [PrtSend, h1, hcol, Except.map]
  · intro st receiver program event args slots hgt
    have hlen : args.length ≠ 0 := by omega
    cases hcol : PrtCollectArgs ("PrtSend") args slots with
    | error e => simp [PrtSend, hlen, hcol, Except.map]
    | ok pr =>
      obtain ⟨vals, slots'⟩ := pr
      simp [PrtSend, hlen, hgt, hcol, Except.map]
  · intro process sym args slots hgt
    have hlen : args.length ≠ 0 := by omega
    cases hcol : PrtCollectArgs ("PrtMkMachine") args slots with
    | error e => simp [PrtMkMachine, hlen, hcol, Except.map]
    | ok pr =>
      obtain ⟨vals, slots'⟩ := pr
      simp [PrtMkMachine, hlen, hgt, hcol, Except.map, PrtMkMachinePrivate,
        PrtCloneValue, initialEntryPayloadType]
  · intro process creator IorM args slots hgt
    have hlen : args.length ≠ 0 := by omega
    cases hcol : PrtCollectArgs ("PrtMkSymbolicMachine") args slots with
    | error e => simp [PrtMkSymbolicMachine, hlen, hcol, Except.map]
    | ok pr =>
      obtain ⟨vals, slots'⟩ := pr
      simp [PrtMkSymbolicMachine, hlen, hgt, hcol, Except.map, PrtMkMachinePrivate,
        PrtCloneValue, initialEntryPayloadType]

/-- Witness for C2 at concrete inputs: one-argument send passes the cloned
integer through; two-argument send packs a tuple of the declared payload type
11 of event 0; two-argument creation packs a tuple of the initial state entry
payload type (21 for machine 0; the default 0 for the out-of-range resolved
index of the symbolic creation). -/
theorem payload_packing_rules_witness :
    ((PrtSend default instA progW (PrtValue.event 0)
        [VarArg.clone (PrtValue.integer 4)] []).map Prod.fst =
      Except.ok (some (PrtValue.integer 4))) ∧
    ((PrtSend default instA progW (PrtValue.event 0)
        [VarArg.clone (PrtValue.integer 4), VarArg.clone (PrtValue.integer 5)] []).map
          Prod.fst =
      Except.ok (some (PrtValue.tuple 11
        [some (PrtValue.integer 4), some (PrtValue.integer 5)]))) ∧
    ((PrtMkMachine processW 0
        [VarArg.clone (PrtValue.integer 4), VarArg.clone (PrtValue.integer 5)] []).map
          (fun r => r.2.1.initialPayload) =
      Except.ok (some (PrtValue.tuple 21
        [some (PrtValue.integer 4), some (PrtValue.integer 5)]))) ∧
    ((PrtMkSymbolicMachine processW creatorW 2
        [VarArg.clone (PrtValue.integer 4), VarArg.clone (PrtValue.integer 5)] []).map
          (fun r => r.2.1.initialPayload) =
      Except.ok (some (PrtValue.tuple 0
        [some (PrtValue.integer 4), some (PrtValue.integer 5)]))) := by
  refine ⟨(payload_packing_rules.1 default instA progW (PrtValue.event 0)
      [VarArg.clone (PrtValue.integer 4)] [] rfl).trans ?_,
    (payload_packing_rules.2.1 default instA progW (PrtValue.event 0)
      [VarArg.clone (PrtValue.integer 4), VarArg.clone (PrtValue.integer 5)] []
      (by decide)).trans ?_,
    (payload_packing_rules.2.2.1 processW 0
      [VarArg.clone (PrtValue.integer 4), VarArg.clone (PrtValue.integer 5)] []
      (by decide)).trans ?_,
    (payload_packing_rules.2.2.2 processW creatorW 2
      [VarArg.clone (PrtValue.integer 4), VarArg.clone (PrtValue.integer 5)] []
      (by decide)).trans ?_⟩ <;> rfl

/-- C3: for a successful variadic intake, the collected array has one entry
per argument and the slot list keeps its length; a CLONE argument at any
position contributes the deep copy of its value and no slot that no MOVE names
is changed (so CLONE leaves the caller value untouched); after a MOVE of slot
k the final slot k is null; and the first MOVE of slot k collects exactly the
value the caller slot held, without copying. -/
theorem varargs_move_and_clone (fname : String) (args : List VarArg)
    (slots vals slots' : List (Option PrtValue))
    (h : PrtCollectArgs fname args slots = Except.ok (vals, slots')) :
    (vals.length = args.length ∧ slots'.length = slots.length) ∧
    (∀ pre v post, args = pre ++ VarArg.clone v :: post →
      vals.getD pre.length none = some (PrtCloneValue v)) ∧
    (∀ k, VarArg.move k ∉ args → slots'.getD k none = slots.getD k none) ∧
    (∀ k, VarArg.move k ∈ args → slots'.getD k none = none) ∧
    (∀ pre k post, args = pre ++ VarArg.move k :: post → VarArg.move k ∉ pre →
      vals.getD pre.length none = slots.getD k none) := by
  refine ⟨collect_lengths fname args slots vals slots' h, ?_, ?_, ?_, ?_⟩
  · intro pre v post hargs
    exact collect_clone_at fname pre v post slots vals slots' (by rw [hargs] at h; exact h)
  · intro k hk
    exact collect_untouched fname args slots vals slots' k h hk
  · intro k hk
    exact collect_move_final_none fname args slots vals slots' k h hk
  · intro pre k post hargs hpre
    exact collect_move_at fname pre k post slots vals slots'
      (by rw [hargs] at h; exact h) hpre

/-- Witness for C3 at a concrete intake: a CLONE of the integer 5 followed by
a MOVE of slot 0 holding the integer 9 collects both values, leaves the moved
slot null, and the moved value is the original slot content. -/
theorem varargs_move_and_clone_witness :
    (PrtCollectArgs ("w") [VarArg.clone (PrtValue.integer 5), VarArg.move 0]
        [some (PrtValue.integer 9)] =
      Except.ok ([some (PrtValue.integer 5), some (PrtValue.integer 9)], [none])) ∧
    ([some (PrtValue.integer 5), some (PrtValue.integer 9)] :
        List (Option PrtValue)).getD 0 none = some (PrtCloneValue (PrtValue.integer 5)) ∧
    ([none] : List (Option PrtValue)).getD 0 none = none ∧
    ([some (PrtValue.integer 5), some (PrtValue.integer 9)] :
        List (Option PrtValue)).getD 1 none =
      ([some (PrtValue.integer 9)] : List (Option PrtValue)).getD 0 none := by
  have H := varargs_move_and_clone ("w")
    [VarArg.clone (PrtValue.integer 5), VarArg.move 0]
    [some (PrtValue.integer 9)]
    [some (PrtValue.integer 5), some (PrtValue.integer 9)] [none] rfl
  exact ⟨rfl, H.2.1 [] (PrtValue.integer 5) [VarArg.move 0] rfl,
    H.2.2.2.1 0 (by simp),
    H.2.2.2.2 [VarArg.clone (PrtValue.integer 5)] 0 [] rfl (by simp)⟩

/-- C4: an argument with SWAP status at any position makes each of the four
variadic-intake operations (PrtSend, PrtSendInternal, PrtMkMachine,
PrtMkSymbolicMachine) fail with the fatal illegal-parameter assertion naming
that operation; no operation accepts SWAP. -/
theorem swap_status_rejected (args : List VarArg) (slots : List (Option PrtValue))
    (h : VarArg.swap ∈ args) :
    (∀ st receiver program event,
      PrtSend st receiver program event args slots =
        Except.error ("Illegal parameter type in PrtSend")) ∧
    (∀ sender receiver program event,
      PrtSendInternal sender receiver program event args slots =
        Except.error ("Illegal parameter type in PrtSendInternal")) ∧
    (∀ process sym,
      PrtMkMachine process sym args slots =
        Except.error ("Illegal parameter type in PrtMkMachine")) ∧
    (∀ process creator IorM,
      PrtMkSymbolicMachine process creator IorM args slots =
        Except.error ("Illegal parameter type in PrtMkSymbolicMachine")) := by
  have hlen : args.length ≠ 0 := by
    cases args with
    | nil => cases h
    | cons a rest => simp
  refine ⟨?_, ?_, ?_, ?_⟩
  · intro st receiver program event
    simp only [PrtSend, if_neg hlen]
    rw [collect_swap_error ("PrtSend") args slots h]
    rfl
  · intro sender receiver program event
    simp only [PrtSendInternal, if_neg hlen]
    rw [collect_swap_error ("PrtSendInternal") args slots h]
    rfl
  · intro process sym
    simp only [PrtMkMachine, if_neg hlen]
    rw [collect_swap_error ("PrtMkMachine") args slots h]
    rfl
  · intro process creator IorM
    simp only [PrtMkSymbolicMachine, if_neg hlen]
    rw [collect_swap_error ("PrtMkSymbolicMachine") args slots h]
    rfl

/-- Witness for C4 at the concrete argument list holding a single SWAP
argument: all four operations report the illegal-parameter assertion. -/
theorem swap_status_rejected_witness :
    (PrtSend default instA progW (PrtValue.event 0) [VarArg.swap] [] =
      Except.error ("Illegal parameter type in PrtSend")) ∧
    (PrtSendInternal instA instA progW (PrtValue.event 0) [VarArg.swap] [] =
      Except.error ("Illegal parameter type in PrtSendInternal")) ∧
    (PrtMkMachine processW 0 [VarArg.swap] [] =
      Except.error ("Illegal parameter type in PrtMkMachine")) ∧
    (PrtMkSymbolicMachine processW creatorW 2 [VarArg.swap] [] =
      Except.error ("Illegal parameter type in PrtMkSymbolicMachine")) := by
  have H := swap_status_rejected [VarArg.swap] [] (by simp)
  exact ⟨H.1 default instA progW (PrtValue.event 0),
    H.2.1 instA instA progW (PrtValue.event 0),
    H.2.2.1 processW 0, H.2.2.2 processW creatorW 2⟩
